import Mathlib

/-!
Verification of the Trade_Engine liquidation-reversion bot.

The definitions below are a shallow embedding of the TypeScript source:

* `LiquidationReversionStrategy` (src/unnamed/part_006) — state fields,
  `onLiquidation`, `enterTrade`, `startPositionMonitor` tick body, `exitTrade`,
  `pause`, `resume`, `flatten`;
* `BinanceWebSocket.getSpreadBps` (src/railway-bot/src/services/binance-ws.ts);
* the `/api/control/resume` route handler (src/server/routes.ts).

JavaScript numbers are modelled as rationals (ℚ), epoch-millisecond clock
values as integers (ℤ).  JavaScript truthiness quirks of the source
(`map[key] || default`, `if (!price)`) are modelled explicitly: the value `0`
falls through to the default exactly as a falsy value does in the source.
-/

namespace TradeEngine

/-- Trading symbols.  The source uses strings; the configured universe is the
`SymbolEnum` of src/unnamed/part_000 (BTCUSDT, ETHUSDT, SOLUSDT), modelled as
an opaque identifier type. -/
inductive Sym where
  | BTCUSDT
  | ETHUSDT
  | SOLUSDT
  deriving DecidableEq, Repr

/-- Side of the forced liquidation order at the venue. -/
inductive LiqSide where
  | BUY
  | SELL
  deriving DecidableEq, Repr

/-- Side of the bot's own position. -/
inductive PosSide where
  | LONG
  | SHORT
  deriving DecidableEq, Repr

/-- Bot states (src/unnamed/part_000 `BotStateEnum`). -/
inductive BotStatus where
  | BOOTING
  | RUNNING
  | PAUSED_MANUAL
  | PAUSED_RISK_LIMIT
  | ERR
  | SHUTDOWN
  deriving DecidableEq, Repr

/-- Exit reasons written by `exitTrade` and `flatten`. -/
inductive ExitReason where
  | TP
  | SL
  | TIME_STOP
  | MANUAL
  | FLATTEN
  deriving DecidableEq, Repr

/-- Association-list lookup, first match wins; models `Map.get` of the source
(maps there have unique keys, and updates are modelled by consing, so
first-match agrees with overwrite). -/
def mlookup {α : Type} : List (Sym × α) → Sym → Option α
  | [], _ => none
  | (k2, v) :: rest, k => if k = k2 then some v else mlookup rest k

/-- JavaScript `map[key] || default`: a missing key and a stored `0` (falsy)
both yield the default, as in `this.config.minLiqUsd[symbol] || 2000000`. -/
def jsOrQ (v : Option ℚ) (d : ℚ) : ℚ :=
  match v with
  | none => d
  | some x => if x = 0 then d else x

/-- Liquidation signal delivered by the feed (src/unnamed/part_006 lines 8-13). -/
structure LiquidationSignal where
  symbol : Sym
  side : LiqSide
  usdValue : ℚ
  timestamp : ℤ
  deriving DecidableEq, Repr

/-- The strategy configuration fields used by the embedded operations
(src/unnamed/part_006 lines 15-31). -/
structure Config where
  symbols : List Sym
  riskPerTradePct : ℚ
  dailyMaxLossPct : ℚ
  maxTradesPerDay : ℕ
  maxConsecutiveLosses : ℕ
  volumeMult : ℚ
  minLiqUsd : List (Sym × ℚ)
  maxSpreadBps : List (Sym × ℚ)
  symbolCooldownSeconds : ℤ
  tpPct : ℚ
  slPct : ℚ
  timeStopSeconds : ℚ
  deriving Repr

/-- Read-only view of the `BinanceWebSocket` rolling statistics as the
strategy queries them (`getSpreadBps`, `getAverageVolume`, `getRecentVolume`,
`getPriceDelta`, `getExhaustionCandles`, `getPrice`). -/
structure FeedView where
  spreadBps : Sym → ℚ
  avgVolume : Sym → ℚ
  recentVolume60 : Sym → ℚ
  priceDelta60 : Sym → ℚ
  exhaustionCandles : Sym → ℕ
  price : Sym → Option ℚ

/-- The in-memory open-trade slot (src/unnamed/part_006 line 44). -/
structure OpenTrade where
  symbol : Sym
  entryPrice : ℚ
  side : PosSide
  entryTime : ℤ
  tradeId : ℕ
  deriving DecidableEq, Repr

/-- Mutable strategy state: pause flag, open-trade slot, cooldown map and the
daily risk counters (src/unnamed/part_006 lines 37-50), plus the bot status
row maintained through `updateBotState`. -/
structure StratState where
  isPaused : Bool
  botStatus : BotStatus
  openTrade : Option OpenTrade
  cooldowns : List (Sym × ℤ)
  todayPnl : ℚ
  todayTradeCount : ℕ
  consecutiveLosses : ℕ
  equity : ℚ
  deriving DecidableEq, Repr

/-- Row inserted by `logMarketEvent` (src/unnamed/part_006 lines 415-448). -/
structure MarketEvent where
  symbol : Sym
  liquidationUsd : ℚ
  volumeMult : ℚ
  spreadBps : ℚ
  priceDelta : ℚ
  exhaustionCandles : ℕ
  liqSizeOk : Bool
  volumeOk : Bool
  spreadOk : Bool
  momentumOk : Bool
  exhaustionOk : Bool
  passed : Bool
  deriving DecidableEq, Repr

/-- Trade row inserted on entry (src/unnamed/part_006 lines 260-268). -/
structure TradeRecordOpen where
  symbol : Sym
  side : PosSide
  entryPrice : ℚ
  quantity : ℚ
  deriving DecidableEq, Repr

/-- Fill reported by the live `marketOrder` call. -/
structure Fill where
  avgPrice : ℚ
  executedQty : ℚ
  deriving DecidableEq, Repr

/-- Position row returned by the live `getPositions` call. -/
structure PositionInfo where
  symbol : Sym
  positionAmt : ℚ
  deriving DecidableEq, Repr

/-- Fields written to the trade row on close (src/unnamed/part_006
lines 347-369). -/
structure TradeClose where
  symbol : Sym
  side : PosSide
  exitPrice : ℚ
  quantity : ℚ
  pnlUsdt : ℚ
  pnlPct : ℚ
  fees : ℚ
  reason : ExitReason
  deriving DecidableEq, Repr

/-! ## Rolling statistics: spread (binance-ws.ts) -/

/-- Entry of the `bookTickers` cache (binance-ws.ts lines 22-29); `timestamp`
is set to `Date.now()` when the frame is handled (line 155). -/
structure BookTickerData where
  bidPrice : ℚ
  bidQty : ℚ
  askPrice : ℚ
  askQty : ℚ
  timestamp : ℤ
  deriving DecidableEq, Repr

/-- `BinanceWebSocket.getSpreadBps` (binance-ws.ts lines 171-176): sentinel
999 when no ticker is cached, otherwise `(ask − bid) / mid · 10000`. -/
def getSpreadBps (bookTickers : List (Sym × BookTickerData)) (symbol : Sym) : ℚ :=
  match mlookup bookTickers symbol with
  | none => 999
  | some ticker =>
      let midPrice := (ticker.bidPrice + ticker.askPrice) / 2
      (ticker.askPrice - ticker.bidPrice) / midPrice * 10000

/-! ## Entry gate criteria (part_006 lines 128-181) -/

/-- Criterion 3 (lines 143-145): `liq.usdValue >= (minLiqUsd[symbol] || 2000000)`. -/
def liqSizeOkB (cfg : Config) (liq : LiquidationSignal) : Bool :=
  decide (liq.usdValue ≥ jsOrQ (mlookup cfg.minLiqUsd liq.symbol) 2000000)

/-- Raw volume multiplier (lines 138-140): `recent / avg` when `avg > 0`, else 0. -/
def volumeMultVal (feed : FeedView) (s : Sym) : ℚ :=
  if feed.avgVolume s > 0 then feed.recentVolume60 s / feed.avgVolume s else 0

/-- Criterion 2 (line 141): `volumeMult >= config.volumeMult`. -/
def volumeOkB (cfg : Config) (feed : FeedView) (s : Sym) : Bool :=
  decide (volumeMultVal feed s ≥ cfg.volumeMult)

/-- Criterion 1 (lines 132-135): `spreadBps <= (maxSpreadBps[symbol] || 4)`. -/
def spreadOkB (cfg : Config) (feed : FeedView) (s : Sym) : Bool :=
  decide (feed.spreadBps s ≤ jsOrQ (mlookup cfg.maxSpreadBps s) 4)

/-- Criterion 4 (lines 147-149): `|priceDelta| < 0.5`. -/
def momentumOkB (feed : FeedView) (s : Sym) : Bool :=
  decide (|feed.priceDelta60 s| < 1 / 2)

/-- Criterion 5 (lines 151-153): `exhaustionCandles >= 1`. -/
def exhaustionOkB (feed : FeedView) (s : Sym) : Bool :=
  decide (feed.exhaustionCandles s ≥ 1)

/-- Lines 158-161, 167: daily-limit, consecutive-loss and daily-loss checks,
conjoined to `riskLimitsPassed`. -/
def riskLimitsOkB (st : StratState) (cfg : Config) : Bool :=
  decide (st.todayTradeCount < cfg.maxTradesPerDay) &&
  decide (st.consecutiveLosses < cfg.maxConsecutiveLosses) &&
  decide (|min 0 st.todayPnl| / st.equity < cfg.dailyMaxLossPct)

/-- Line 200: the pause is triggered by `!consecutiveLossOk || !dailyLossOk`
(the daily trade-count limit alone does not pause). -/
def pauseTriggeredB (st : StratState) (cfg : Config) : Bool :=
  !decide (st.consecutiveLosses < cfg.maxConsecutiveLosses) ||
  !decide (|min 0 st.todayPnl| / st.equity < cfg.dailyMaxLossPct)

/-- Line 166: `signalQualityPassed := liqSizeOk && volumeOk && spreadOk &&
momentumOk && exhaustionOk`. -/
def signalQualityB (cfg : Config) (feed : FeedView) (liq : LiquidationSignal) : Bool :=
  liqSizeOkB cfg liq && volumeOkB cfg feed liq.symbol && spreadOkB cfg feed liq.symbol &&
  momentumOkB feed liq.symbol && exhaustionOkB feed liq.symbol

/-- The market-event row assembled by `onLiquidation` and written by
`logMarketEvent` (lines 186-196 and 432-447), with
`passed := signalQualityPassed && riskLimitsPassed` (line 168). -/
def gateCriteria (st : StratState) (cfg : Config) (feed : FeedView)
    (liq : LiquidationSignal) : MarketEvent :=
  { symbol := liq.symbol
    liquidationUsd := liq.usdValue
    volumeMult := volumeMultVal feed liq.symbol
    spreadBps := feed.spreadBps liq.symbol
    priceDelta := feed.priceDelta60 liq.symbol
    exhaustionCandles := feed.exhaustionCandles liq.symbol
    liqSizeOk := liqSizeOkB cfg liq
    volumeOk := volumeOkB cfg feed liq.symbol
    spreadOk := spreadOkB cfg feed liq.symbol
    momentumOk := momentumOkB feed liq.symbol
    exhaustionOk := exhaustionOkB feed liq.symbol
    passed := signalQualityB cfg feed liq && riskLimitsOkB st cfg }

/-! ## Trade entry (part_006 lines 220-288) -/

/-- `enterTrade`.  Deterministic parameters stand for the effects consumed by
the source: `slippage` is the simulated-slippage draw of line 243, `tradeId`
the id returned by the database insert, `orderFill` the result of the live
`marketOrder` call (`none` models the call throwing, caught at line 285 with
no state change).  A missing or zero (falsy) price aborts (lines 221-225). -/
def enterTrade (st : StratState) (cfg : Config) (feed : FeedView) (symbol : Sym)
    (side : PosSide) (now : ℤ) (slippage : ℚ) (tradeId : ℕ) (isLive : Bool)
    (orderFill : Option Fill) : StratState × Option TradeRecordOpen :=
  match feed.price symbol with
  | none => (st, none)
  | some price =>
    if price = 0 then (st, none)
    else
      let riskAmount := st.equity * cfg.riskPerTradePct
      let slDistance := price * cfg.slPct
      let quantity := riskAmount / slDistance
      let fill : Option (ℚ × ℚ) :=
        if isLive then orderFill.map (fun f => (f.avgPrice, f.executedQty))
        else some
          (if side = PosSide.LONG then price * (1 + slippage / 100)
           else price * (1 - slippage / 100), quantity)
      match fill with
      | none => (st, none)
      | some (avgPrice, executedQty) =>
        let tr : TradeRecordOpen :=
          { symbol := symbol, side := side, entryPrice := avgPrice, quantity := executedQty }
        ({ st with
            openTrade := some
              { symbol := symbol, entryPrice := avgPrice, side := side,
                entryTime := now, tradeId := tradeId }
            cooldowns := (symbol, now + cfg.symbolCooldownSeconds * 1000) :: st.cooldowns
            todayTradeCount := st.todayTradeCount + 1 }, some tr)

/-! ## Liquidation handler (part_006 lines 115-218) -/

/-- Result of one `onLiquidation` call: the successor state, the market event
written by `logMarketEvent` (if any), and the trade row inserted on entry
(if any). -/
structure LiqOutcome where
  state : StratState
  event : Option MarketEvent
  entry : Option TradeRecordOpen
  deriving Repr

/-- `onLiquidation`: pause/open-trade/symbol guards (lines 116-120), silent
cooldown drop (lines 122-126), criteria evaluation and event logging
(lines 128-196), risk-limit pause handling (lines 198-205), signal-quality
rejection (lines 207-210), and entry in the direction opposite the
liquidation (lines 215-217). -/
def onLiquidation (st : StratState) (cfg : Config) (feed : FeedView)
    (liq : LiquidationSignal) (now : ℤ) (slippage : ℚ) (tradeId : ℕ)
    (isLive : Bool) (orderFill : Option Fill) : LiqOutcome :=
  if st.isPaused then ⟨st, none, none⟩
  else if st.openTrade.isSome then ⟨st, none, none⟩
  else if ¬ liq.symbol ∈ cfg.symbols then ⟨st, none, none⟩
  else if now < (mlookup st.cooldowns liq.symbol).getD 0 then ⟨st, none, none⟩
  else
    let ev := gateCriteria st cfg feed liq
    if !riskLimitsOkB st cfg then
      if pauseTriggeredB st cfg then
        ⟨{ st with botStatus := BotStatus.PAUSED_RISK_LIMIT, isPaused := true },
          some ev, none⟩
      else ⟨st, some ev, none⟩
    else if !signalQualityB cfg feed liq then ⟨st, some ev, none⟩
    else
      let side := if liq.side = LiqSide.BUY then PosSide.SHORT else PosSide.LONG
      let r := enterTrade st cfg feed liq.symbol side now slippage tradeId isLive orderFill
      ⟨r.1, some ev, r.2⟩

/-! ## Position monitor and exit (part_006 lines 290-386) -/

/-- Body of the 100 ms `startPositionMonitor` tick (lines 290-319): with an
open trade and an available (truthy) price, compute `pnlPct` and pick the
first matching exit reason in the order TP, SL, TIME_STOP. -/
def monitorTick (st : StratState) (cfg : Config) (feed : FeedView) (now : ℤ) :
    Option ExitReason :=
  match st.openTrade with
  | none => none
  | some t =>
    match feed.price t.symbol with
    | none => none
    | some currentPrice =>
      if currentPrice = 0 then none
      else
        let pnlPct :=
          if t.side = PosSide.LONG then (currentPrice - t.entryPrice) / t.entryPrice
          else (t.entryPrice - currentPrice) / t.entryPrice
        let timeInTrade := ((now - t.entryTime : ℤ) : ℚ) / 1000
        if pnlPct ≥ cfg.tpPct then some ExitReason.TP
        else if pnlPct ≤ -cfg.slPct then some ExitReason.SL
        else if timeInTrade ≥ cfg.timeStopSeconds then some ExitReason.TIME_STOP
        else none

/-- `exitTrade` (lines 321-386).  The exit price is `getPrice(symbol) ||
entryPrice` (line 328): a missing or zero price falls back to the entry
price.  In paper mode the closed quantity is recomputed as
`(equity · riskPerTradePct) / (entryPrice · slPct)` (line 334); in live mode
it is taken from the venue position, and a throwing `marketOrder`
(`orderOk = false`) aborts with no state change (catch at line 383). -/
def exitTrade (st : StratState) (cfg : Config) (feed : FeedView) (now : ℤ)
    (isLive : Bool) (positions : List PositionInfo) (orderOk : Bool)
    (reason : ExitReason) : StratState × Option TradeClose :=
  match st.openTrade with
  | none => (st, none)
  | some t =>
    let exitPrice :=
      match feed.price t.symbol with
      | none => t.entryPrice
      | some p => if p = 0 then t.entryPrice else p
    let livePos := positions.find? (fun p => decide (p.symbol = t.symbol))
    if isLive && livePos.isSome && !orderOk then (st, none)
    else
      let quantity :=
        if !isLive then st.equity * cfg.riskPerTradePct / (t.entryPrice * cfg.slPct)
        else
          match livePos with
          | some p => |p.positionAmt|
          | none => 0
      let pnlPct :=
        if t.side = PosSide.LONG then (exitPrice - t.entryPrice) / t.entryPrice
        else (t.entryPrice - exitPrice) / t.entryPrice
      let pnlUsdt := t.entryPrice * quantity * pnlPct
      let fees := |pnlUsdt| * (4 / 100)
      ({ st with
          todayPnl := st.todayPnl + pnlUsdt
          consecutiveLosses := if pnlUsdt ≥ 0 then 0 else st.consecutiveLosses + 1
          openTrade := none },
        some { symbol := t.symbol, side := t.side, exitPrice := exitPrice,
               quantity := quantity, pnlUsdt := pnlUsdt, pnlPct := pnlPct,
               fees := fees, reason := reason })

/-! ## System step relation -/

/-- External stimuli serialized onto the strategy task: a liquidation event
(with the feed snapshot and effect parameters it consumes), a position-monitor
tick, and the control commands `pause`, `resume`, `flatten`. -/
inductive Input where
  | liqEv (feed : FeedView) (l : LiquidationSignal) (now : ℤ) (slippage : ℚ)
      (tradeId : ℕ) (fill : Option Fill)
  | tick (feed : FeedView) (now : ℤ) (positions : List PositionInfo) (orderOk : Bool)
  | pauseCmd
  | resumeCmd
  | flattenCmd (feed : FeedView) (now : ℤ) (positions : List PositionInfo) (orderOk : Bool)

/-- One serialized step of the strategy task; returns the market event the
step writes, if any.  `pause`/`resume` are part_006 lines 529-539; `flatten`
(lines 549-563) force-exits any open trade then pauses. -/
def step (cfg : Config) (isLive : Bool) (st : StratState) :
    Input → StratState × Option MarketEvent
  | Input.liqEv feed l now slippage tradeId fill =>
    let o := onLiquidation st cfg feed l now slippage tradeId isLive fill
    (o.state, o.event)
  | Input.tick feed now positions orderOk =>
    match monitorTick st cfg feed now with
    | some r => ((exitTrade st cfg feed now isLive positions orderOk r).1, none)
    | none => (st, none)
  | Input.pauseCmd =>
    ({ st with isPaused := true, botStatus := BotStatus.PAUSED_MANUAL }, none)
  | Input.resumeCmd =>
    ({ st with isPaused := false, botStatus := BotStatus.RUNNING }, none)
  | Input.flattenCmd feed now positions orderOk =>
    let st2 :=
      if st.openTrade.isSome then
        (exitTrade st cfg feed now isLive positions orderOk ExitReason.FLATTEN).1
      else st
    ({ st2 with isPaused := true, botStatus := BotStatus.PAUSED_MANUAL }, none)

/-- Run a list of inputs, collecting every market event written. -/
def run (cfg : Config) (isLive : Bool) : StratState → List Input →
    StratState × List MarketEvent
  | st, [] => (st, [])
  | st, inp :: rest =>
    let r := step cfg isLive st inp
    let r2 := run cfg isLive r.1 rest
    (r2.1, r.2.toList ++ r2.2)

/-! ## Control plane: resume route (src/server/routes.ts lines 217-243) -/

/-- Outcome surfaced to the caller of `/api/control/resume`. -/
inductive ResumeResult where
  | ok (newStatus : BotStatus)
  | rejected (httpStatus : ℕ)
  deriving DecidableEq, Repr

/-- The resume handler: reads the current bot status, rejects with HTTP 400
("Cannot resume: bot is not in manual pause state") unless the status is
PAUSED_MANUAL, otherwise writes RUNNING.  Returns the response and the stored
status after the request. -/
def resumeHandler (current : BotStatus) : ResumeResult × BotStatus :=
  if current ≠ BotStatus.PAUSED_MANUAL then (ResumeResult.rejected 400, current)
  else (ResumeResult.ok BotStatus.RUNNING, BotStatus.RUNNING)

/-! ## Concrete sample inputs (default configuration of part_005 `loadConfig`) -/

/-- Default configuration (src/unnamed/part_005 lines 139-155): risk 0.25 %,
daily max loss 1.5 %, 10 trades/day, 3 consecutive losses, volume mult 2.0,
cooldown 300 s, TP 0.35 %, SL 0.45 %, time stop 150 s. -/
def cfgEx : Config :=
  { symbols := [Sym.BTCUSDT, Sym.ETHUSDT]
    riskPerTradePct := 1 / 400
    dailyMaxLossPct := 3 / 200
    maxTradesPerDay := 10
    maxConsecutiveLosses := 3
    volumeMult := 2
    minLiqUsd := [(Sym.BTCUSDT, 2500000), (Sym.ETHUSDT, 1250000)]
    maxSpreadBps := [(Sym.BTCUSDT, 3), (Sym.ETHUSDT, 4)]
    symbolCooldownSeconds := 300
    tpPct := 7 / 2000
    slPct := 9 / 2000
    timeStopSeconds := 150 }

/-- Feed snapshot on which every signal factor passes for BTCUSDT. -/
def feedEx : FeedView :=
  { spreadBps := fun _ => 2
    avgVolume := fun _ => 100
    recentVolume60 := fun _ => 300
    priceDelta60 := fun _ => 1 / 10
    exhaustionCandles := fun _ => 2
    price := fun _ => some 100 }

/-- Feed snapshot with no price available for any symbol. -/
def feedNoPrice : FeedView :=
  { feedEx with price := fun _ => none }

/-- Fresh running state with the default 1400 USDT equity. -/
def stEx : StratState :=
  { isPaused := false
    botStatus := BotStatus.RUNNING
    openTrade := none
    cooldowns := []
    todayPnl := 0
    todayTradeCount := 0
    consecutiveLosses := 0
    equity := 1400 }

/-- A large SELL liquidation on BTCUSDT. -/
def liqEx : LiquidationSignal :=
  { symbol := Sym.BTCUSDT, side := LiqSide.SELL, usdValue := 3000000, timestamp := 0 }

/-- State whose daily counters were filled on an earlier UTC day: the trade
count sits at the daily maximum. -/
def stDayOld : StratState :=
  { stEx with todayTradeCount := 10 }

/-- The same liquidation arriving at epoch 90,000,000 ms = 1970-01-02
01:00:00 UTC, one UTC day after the counters accumulated. -/
def liqNextDay : LiquidationSignal :=
  { liqEx with timestamp := 90000000 }

/-- A cached book ticker whose `timestamp` is 0: at any clock beyond 2000 ms
it is stale by the spec's 2-second rule. -/
def staleTicker : BookTickerData :=
  { bidPrice := 9999, bidQty := 1, askPrice := 10001, askQty := 1, timestamp := 0 }

/-- State holding an open LONG BTCUSDT position entered at price 100. -/
def stWithTrade : StratState :=
  { stEx with
    openTrade := some
      { symbol := Sym.BTCUSDT, entryPrice := 100, side := PosSide.LONG,
        entryTime := 0, tradeId := 1 } }

/-- Feed identical to `feedEx` but with the price moved up 0.5 % to 100.5,
enough to hit the 0.35 % take profit from an entry at 100. -/
def feedTP : FeedView :=
  { feedEx with price := fun _ => some (201 / 2) }

/-- State with an active cooldown for BTCUSDT until epoch 300,000 ms. -/
def stCooldown : StratState :=
  { stEx with cooldowns := [(Sym.BTCUSDT, 300000)] }

/-- Modelled from the spec: the claim's pnl formula, `(current −
entry)/entry` for LONG and its negation for SHORT, stated for comparison
with the code's `monitorTick`. -/
def pnlPctSpec (side : PosSide) (entry cur : ℚ) : ℚ :=
  if side = PosSide.LONG then (cur - entry) / entry else -((cur - entry) / entry)

/-- Bound used for the cooldown-interval trace theorem: every liquidation
input in the trace is processed strictly before the given clock bound;
non-liquidation inputs are unrestricted. -/
def liqTimeLt (bound : ℤ) : Input → Prop
  | Input.liqEv _ _ now _ _ _ => now < bound
  | _ => True

/-! ## Supporting lemmas -/

/-- Under the entry-gate preconditions (not paused, no open trade, configured
symbol, cooldown expired) `onLiquidation` logs exactly the `gateCriteria`
event. -/
lemma onLiquidation_event_eq (st : StratState) (cfg : Config) (feed : FeedView)
    (liq : LiquidationSignal) (now : ℤ) (slippage : ℚ) (tradeId : ℕ)
    (isLive : Bool) (fill : Option Fill)
    (hp : st.isPaused = false) (ho : st.openTrade = none)
    (hs : liq.symbol ∈ cfg.symbols)
    (hc : ¬ now < (mlookup st.cooldowns liq.symbol).getD 0) :
    (onLiquidation st cfg feed liq now slippage tradeId isLive fill).event =
      some (gateCriteria st cfg feed liq) := by
  unfold onLiquidation
  rw [if_neg (by simp [hp]), if_neg (by simp [ho]), if_neg (not_not_intro hs), if_neg hc]
  cases hrl : riskLimitsOkB st cfg
  · cases hpt : pauseTriggeredB st cfg <;> simp [hrl, hpt]
  · cases hsq : signalQualityB cfg feed liq <;> simp [hrl, hsq]

/-- With the gate open, failing risk limits without triggering the pause
conditions rejects the candidate and leaves the state untouched. -/
lemma onLiquidation_reject_only (st : StratState) (cfg : Config) (feed : FeedView)
    (liq : LiquidationSignal) (now : ℤ) (slippage : ℚ) (tradeId : ℕ)
    (isLive : Bool) (fill : Option Fill)
    (hp : st.isPaused = false) (ho : st.openTrade = none)
    (hs : liq.symbol ∈ cfg.symbols)
    (hc : ¬ now < (mlookup st.cooldowns liq.symbol).getD 0)
    (hrl : riskLimitsOkB st cfg = false) (hpt : pauseTriggeredB st cfg = false) :
    onLiquidation st cfg feed liq now slippage tradeId isLive fill =
      ⟨st, some (gateCriteria st cfg feed liq), none⟩ := by
  unfold onLiquidation
  rw [if_neg (by simp [hp]), if_neg (by simp [ho]), if_neg (not_not_intro hs), if_neg hc]
  simp [hrl, hpt]

/-- With the gate open, a triggered pause condition rejects the candidate and
pauses the bot with status PAUSED_RISK_LIMIT. -/
lemma onLiquidation_reject_pause (st : StratState) (cfg : Config) (feed : FeedView)
    (liq : LiquidationSignal) (now : ℤ) (slippage : ℚ) (tradeId : ℕ)
    (isLive : Bool) (fill : Option Fill)
    (hp : st.isPaused = false) (ho : st.openTrade = none)
    (hs : liq.symbol ∈ cfg.symbols)
    (hc : ¬ now < (mlookup st.cooldowns liq.symbol).getD 0)
    (hrl : riskLimitsOkB st cfg = false) (hpt : pauseTriggeredB st cfg = true) :
    onLiquidation st cfg feed liq now slippage tradeId isLive fill =
      ⟨{ st with botStatus := BotStatus.PAUSED_RISK_LIMIT, isPaused := true },
        some (gateCriteria st cfg feed liq), none⟩ := by
  unfold onLiquidation
  rw [if_neg (by simp [hp]), if_neg (by simp [ho]), if_neg (not_not_intro hs), if_neg hc]
  simp [hrl, hpt]

/-- Any liquidation processed while its symbol is still in cooldown is a
complete no-op: no state change, no market event, no entry. -/
lemma onLiquidation_cooldown_drop (st : StratState) (cfg : Config) (feed : FeedView)
    (liq : LiquidationSignal) (now : ℤ) (slippage : ℚ) (tradeId : ℕ)
    (isLive : Bool) (fill : Option Fill)
    (h : now < (mlookup st.cooldowns liq.symbol).getD 0) :
    onLiquidation st cfg feed liq now slippage tradeId isLive fill =
      ⟨st, none, none⟩ := by
  unfold onLiquidation
  by_cases hb : st.isPaused = true
  · rw [if_pos hb]
  · rw [if_neg hb]
    by_cases ho2 : st.openTrade.isSome = true
    · rw [if_pos ho2]
    · rw [if_neg ho2]
      by_cases hs : liq.symbol ∈ cfg.symbols
      · rw [if_neg (not_not_intro hs), if_pos h]
      · rw [if_pos hs]

/-- `exitTrade` never touches the cooldown map. -/
lemma exitTrade_cooldowns (st : StratState) (cfg : Config) (feed : FeedView)
    (now : ℤ) (isLive : Bool) (positions : List PositionInfo) (orderOk : Bool)
    (reason : ExitReason) :
    ((exitTrade st cfg feed now isLive positions orderOk reason).1).cooldowns =
      st.cooldowns := by
  cases hot : st.openTrade with
  | none => simp [exitTrade, hot]
  | some t =>
    simp only [exitTrade, hot]
    split
    · rfl
    · rfl

/-- A successful `enterTrade` conses the new cooldown entry onto the map. -/
lemma enterTrade_cooldowns_of_entry (st : StratState) (cfg : Config)
    (feed : FeedView) (symbol : Sym) (side : PosSide) (now : ℤ) (slippage : ℚ)
    (tradeId : ℕ) (isLive : Bool) (fill : Option Fill) (tr : TradeRecordOpen)
    (h : (enterTrade st cfg feed symbol side now slippage tradeId isLive fill).2 =
      some tr) :
    (enterTrade st cfg feed symbol side now slippage tradeId isLive fill).1.cooldowns =
      (symbol, now + cfg.symbolCooldownSeconds * 1000) :: st.cooldowns := by
  cases hpr : feed.price symbol with
  | none => simp [enterTrade, hpr] at h
  | some p =>
    by_cases hz : p = 0
    · simp [enterTrade, hpr, hz] at h
    · cases hl : isLive
      · simp [enterTrade, hpr, hz, hl]
      · cases hf : fill with
        | none => simp [enterTrade, hpr, hz, hl, hf] at h
        | some f => simp [enterTrade, hpr, hz, hl, hf]

/-- `enterTrade` either leaves the state untouched or fills the open-trade
slot with the freshly opened trade. -/
lemma enterTrade_openTrade_cases (st : StratState) (cfg : Config)
    (feed : FeedView) (symbol : Sym) (side : PosSide) (now : ℤ) (slippage : ℚ)
    (tradeId : ℕ) (isLive : Bool) (fill : Option Fill) :
    (enterTrade st cfg feed symbol side now slippage tradeId isLive fill).1 = st ∨
    (enterTrade st cfg feed symbol side now slippage tradeId isLive fill).1.openTrade.isSome
      = true := by
  cases hpr : feed.price symbol with
  | none => exact Or.inl (by simp [enterTrade, hpr])
  | some p =>
    by_cases hz : p = 0
    · exact Or.inl (by simp [enterTrade, hpr, hz])
    · cases hl : isLive
      · exact Or.inr (by simp [enterTrade, hpr, hz, hl])
      · cases hf : fill with
        | none => exact Or.inl (by simp [enterTrade, hpr, hz, hl, hf])
        | some f => exact Or.inr (by simp [enterTrade, hpr, hz, hl, hf])

/-! ## Claim theorems -/

/-- C1: on every liquidation that reaches the entry gate (running, no open
position, configured symbol, cooldown expired), the logged Market Event has
`passed = true` iff all five signal factors hold and the three risk-governor
conditions admit the candidate. -/
theorem market_event_passed_iff (st : StratState) (cfg : Config)
    (feed : FeedView) (liq : LiquidationSignal) (now : ℤ) (slippage : ℚ)
    (tradeId : ℕ) (isLive : Bool) (fill : Option Fill)
    (hrun : st.botStatus = BotStatus.RUNNING)
    (hp : st.isPaused = false) (ho : st.openTrade = none)
    (hs : liq.symbol ∈ cfg.symbols)
    (hc : ¬ now < (mlookup st.cooldowns liq.symbol).getD 0) :
    ∃ ev : MarketEvent,
      (onLiquidation st cfg feed liq now slippage tradeId isLive fill).event = some ev ∧
      (ev.passed = true ↔
        (ev.liqSizeOk = true ∧ ev.volumeOk = true ∧ ev.spreadOk = true ∧
         ev.momentumOk = true ∧ ev.exhaustionOk = true ∧
         st.todayTradeCount < cfg.maxTradesPerDay ∧
         st.consecutiveLosses < cfg.maxConsecutiveLosses ∧
         |min 0 st.todayPnl| / st.equity < cfg.dailyMaxLossPct)) := by
  refine ⟨gateCriteria st cfg feed liq,
    onLiquidation_event_eq st cfg feed liq now slippage tradeId isLive fill hp ho hs hc, ?_⟩
  simp only [gateCriteria, signalQualityB, riskLimitsOkB, Bool.and_eq_true,
    decide_eq_true_eq, and_assoc]

/-- C1 witness: on the sample running state and all-factors-pass feed, the
gate hypotheses hold and the characterization applies. -/
theorem market_event_passed_iff_witness :
    stEx.botStatus = BotStatus.RUNNING ∧ stEx.isPaused = false ∧
    stEx.openTrade = none ∧ liqEx.symbol ∈ cfgEx.symbols ∧
    ¬ (0 : ℤ) < (mlookup stEx.cooldowns liqEx.symbol).getD 0 ∧
    ∃ ev : MarketEvent,
      (onLiquidation stEx cfgEx feedEx liqEx 0 (1 / 50) 1 false none).event = some ev ∧
      (ev.passed = true ↔
        (ev.liqSizeOk = true ∧ ev.volumeOk = true ∧ ev.spreadOk = true ∧
         ev.momentumOk = true ∧ ev.exhaustionOk = true ∧
         stEx.todayTradeCount < cfgEx.maxTradesPerDay ∧
         stEx.consecutiveLosses < cfgEx.maxConsecutiveLosses ∧
         |min 0 stEx.todayPnl| / stEx.equity < cfgEx.dailyMaxLossPct)) :=
  ⟨rfl, rfl, rfl, by decide, by decide,
    market_event_passed_iff stEx cfgEx feedEx liqEx 0 (1 / 50) 1 false none
      rfl rfl rfl (by decide) (by decide)⟩

/-- C2: the open-trade slot never holds a second position.  A liquidation
arriving while the slot is occupied is a complete no-op, and in general one
`onLiquidation` call either leaves the slot exactly as it was or fills a
previously empty slot. -/
theorem single_position_slot (st : StratState) (cfg : Config) (feed : FeedView)
    (liq : LiquidationSignal) (now : ℤ) (slippage : ℚ) (tradeId : ℕ)
    (isLive : Bool) (fill : Option Fill) :
    (st.openTrade.isSome = true →
      onLiquidation st cfg feed liq now slippage tradeId isLive fill =
        ⟨st, none, none⟩) ∧
    ((onLiquidation st cfg feed liq now slippage tradeId isLive fill).state.openTrade =
        st.openTrade ∨
      (st.openTrade = none ∧
        (onLiquidation st cfg feed liq now slippage tradeId isLive fill).state.openTrade.isSome
          = true)) := by
  constructor
  · intro h
    cases hb : st.isPaused
    · simp [onLiquidation, hb, h]
    · simp [onLiquidation, hb]
  · cases hb : st.isPaused
    · cases ho : st.openTrade with
      | some t => simp [onLiquidation, hb, ho]
      | none =>
        by_cases hs : liq.symbol ∈ cfg.symbols
        · by_cases hc : now < (mlookup st.cooldowns liq.symbol).getD 0
          · simp [onLiquidation, hb, ho, hs, hc]
          · unfold onLiquidation
            rw [if_neg (by simp [hb]), if_neg (by simp [ho]),
              if_neg (not_not_intro hs), if_neg hc]
            cases hrl : riskLimitsOkB st cfg
            · cases hpt : pauseTriggeredB st cfg <;> simp [hrl, hpt] <;>
                exact Or.inl ho
            · cases hsq : signalQualityB cfg feed liq
              · simp [hrl, hsq]
                exact Or.inl ho
              · simp only [hrl, hsq, Bool.not_true, Bool.false_eq_true, if_false]
                rcases enterTrade_openTrade_cases st cfg feed liq.symbol
                  (if liq.side = LiqSide.BUY then PosSide.SHORT else PosSide.LONG)
                  now slippage tradeId isLive fill with he | he
                · exact Or.inl (by rw [he]; exact ho)
                · refine Or.inr ⟨by trivial, he⟩
        · simp [onLiquidation, hb, ho, hs]
    · simp [onLiquidation, hb]

/-- C2 witness: instantiated on the sample state. -/
theorem single_position_slot_witness :
    (stWithTrade.openTrade.isSome = true →
      onLiquidation stWithTrade cfgEx feedEx liqEx 0 (1 / 50) 1 false none =
        ⟨stWithTrade, none, none⟩) ∧
    ((onLiquidation stWithTrade cfgEx feedEx liqEx 0 (1 / 50) 1 false none).state.openTrade =
        stWithTrade.openTrade ∨
      (stWithTrade.openTrade = none ∧
        (onLiquidation stWithTrade cfgEx feedEx liqEx 0 (1 / 50) 1 false none).state.openTrade.isSome
          = true)) :=
  single_position_slot stWithTrade cfgEx feedEx liqEx 0 (1 / 50) 1 false none

/-- C9: the resume route succeeds (writing RUNNING) exactly from
PAUSED_MANUAL; from every other state it answers HTTP 400 and leaves the
stored status unchanged. -/
theorem resume_only_from_manual_pause (s : BotStatus) :
    (s = BotStatus.PAUSED_MANUAL →
      resumeHandler s = (ResumeResult.ok BotStatus.RUNNING, BotStatus.RUNNING)) ∧
    (s ≠ BotStatus.PAUSED_MANUAL →
      resumeHandler s = (ResumeResult.rejected 400, s)) := by
  constructor
  · intro h; simp [resumeHandler, h]
  · intro h; simp [resumeHandler, h]

/-- C9 witness: resume succeeds from PAUSED_MANUAL and is rejected from
PAUSED_RISK_LIMIT with the state left unchanged. -/
theorem resume_only_from_manual_pause_witness :
    resumeHandler BotStatus.PAUSED_MANUAL =
      (ResumeResult.ok BotStatus.RUNNING, BotStatus.RUNNING) ∧
    resumeHandler BotStatus.PAUSED_RISK_LIMIT =
      (ResumeResult.rejected 400, BotStatus.PAUSED_RISK_LIMIT) :=
  ⟨(resume_only_from_manual_pause BotStatus.PAUSED_MANUAL).1 rfl,
    (resume_only_from_manual_pause BotStatus.PAUSED_RISK_LIMIT).2 (by decide)⟩

/-- C10: when no current price is available at exit time, the exit price
falls back to the entry price, realized pnl is zero, the close is treated as
non-negative (consecutive losses reset to 0), and the trade is recorded as
closed with the slot cleared. -/
theorem exit_price_fallback (st : StratState) (cfg : Config) (feed : FeedView)
    (now : ℤ) (isLive : Bool) (positions : List PositionInfo)
    (reason : ExitReason) (t : OpenTrade)
    (ht : st.openTrade = some t) (hp : feed.price t.symbol = none) :
    ∃ st2 cl, exitTrade st cfg feed now isLive positions true reason = (st2, some cl) ∧
      cl.exitPrice = t.entryPrice ∧ cl.pnlPct = 0 ∧ cl.pnlUsdt = 0 ∧
      st2.consecutiveLosses = 0 ∧ st2.openTrade = none ∧
      st2.todayPnl = st.todayPnl := by
  simp only [exitTrade, ht, hp, Bool.not_true, Bool.and_false, Bool.false_eq_true,
    if_false]
  refine ⟨_, _, rfl, rfl, ?_, ?_, ?_, rfl, ?_⟩
  · cases t.side <;> simp
  · cases t.side <;> simp
  · cases t.side <;> simp
  · cases t.side <;> simp

/-- C10 witness: applied to the sample open LONG position with a price-less
feed. -/
theorem exit_price_fallback_witness :
    stWithTrade.openTrade = some
      { symbol := Sym.BTCUSDT, entryPrice := 100, side := PosSide.LONG,
        entryTime := 0, tradeId := 1 } ∧
    ∃ st2 cl,
      exitTrade stWithTrade cfgEx feedNoPrice 60000 false [] true
          ExitReason.TIME_STOP = (st2, some cl) ∧
      cl.exitPrice = (100 : ℚ) ∧ cl.pnlPct = 0 ∧ cl.pnlUsdt = 0 ∧
      st2.consecutiveLosses = 0 ∧ st2.openTrade = none ∧
      st2.todayPnl = stWithTrade.todayPnl :=
  ⟨rfl, exit_price_fallback stWithTrade cfgEx feedNoPrice 60000 false []
      ExitReason.TIME_STOP _ rfl rfl⟩

/-- C7 counterexample: the book cache for BTCUSDT was last updated at epoch
0 ms; at clock 100,000 ms it is stale far beyond 2 s, yet `getSpreadBps`
still returns the finite cached spread 2 bps, which passes the configured
3 bps limit — it is not forced to +∞ and the spread check does not fail
safe. -/
theorem stale_spread_not_infinite :
    getSpreadBps [(Sym.BTCUSDT, staleTicker)] Sym.BTCUSDT = 2 ∧
    (100000 : ℤ) - staleTicker.timestamp > 2000 ∧
    getSpreadBps [(Sym.BTCUSDT, staleTicker)] Sym.BTCUSDT ≤
      jsOrQ (mlookup cfgEx.maxSpreadBps Sym.BTCUSDT) 4 := by
  refine ⟨?_, by decide, ?_⟩ <;>
    norm_num [getSpreadBps, staleTicker, mlookup, jsOrQ, cfgEx]

/-- C7 (amended): `getSpreadBps` returns the sentinel 999 when no book
ticker is cached; when a ticker is cached, the result is computed from its
bid/ask only and is invariant under the ticker's age — there is no staleness
check. -/
theorem spread_sentinel_no_staleness :
    (∀ m s, mlookup m s = none → getSpreadBps m s = 999) ∧
    (∀ m s t (ts2 : ℤ), mlookup m s = some t →
      getSpreadBps m s = getSpreadBps [(s, { t with timestamp := ts2 })] s) ∧
    (999 : ℚ) ≥ 999 := by
  refine ⟨?_, ?_, le_refl _⟩
  · intro m s h; simp [getSpreadBps, h]
  · intro m s t ts2 h; simp [getSpreadBps, h, mlookup]

/-- C7 witness: sentinel on the empty cache, and age-invariance on the stale
sample ticker. -/
theorem spread_sentinel_no_staleness_witness :
    getSpreadBps [] Sym.BTCUSDT = 999 ∧
    getSpreadBps [(Sym.BTCUSDT, staleTicker)] Sym.BTCUSDT =
      getSpreadBps [(Sym.BTCUSDT, { staleTicker with timestamp := 99999999 })]
        Sym.BTCUSDT :=
  ⟨spread_sentinel_no_staleness.1 [] Sym.BTCUSDT rfl,
    spread_sentinel_no_staleness.2.1 [(Sym.BTCUSDT, staleTicker)] Sym.BTCUSDT
      staleTicker 99999999 rfl⟩

/-- C3: for a candidate that reaches the risk checks, hitting only the daily
trade-count limit rejects it with the state completely unchanged (no pause),
whereas hitting the consecutive-loss limit or the daily-loss limit rejects it
and pauses the bot with status PAUSED_RISK_LIMIT; in both cases the logged
event has `passed = false`. -/
theorem risk_governor_reject_and_pause (st : StratState) (cfg : Config)
    (feed : FeedView) (liq : LiquidationSignal) (now : ℤ) (slippage : ℚ)
    (tradeId : ℕ) (isLive : Bool) (fill : Option Fill)
    (hp : st.isPaused = false) (ho : st.openTrade = none)
    (hs : liq.symbol ∈ cfg.symbols)
    (hc : ¬ now < (mlookup st.cooldowns liq.symbol).getD 0) :
    ((cfg.maxTradesPerDay ≤ st.todayTradeCount →
      st.consecutiveLosses < cfg.maxConsecutiveLosses →
      |min 0 st.todayPnl| / st.equity < cfg.dailyMaxLossPct →
      onLiquidation st cfg feed liq now slippage tradeId isLive fill =
        ⟨st, some (gateCriteria st cfg feed liq), none⟩ ∧
      (gateCriteria st cfg feed liq).passed = false) ∧
    ((cfg.maxConsecutiveLosses ≤ st.consecutiveLosses ∨
      cfg.dailyMaxLossPct ≤ |min 0 st.todayPnl| / st.equity) →
      onLiquidation st cfg feed liq now slippage tradeId isLive fill =
        ⟨{ st with botStatus := BotStatus.PAUSED_RISK_LIMIT, isPaused := true },
          some (gateCriteria st cfg feed liq), none⟩ ∧
      (gateCriteria st cfg feed liq).passed = false)) := by
  constructor
  · intro h1 h2 h3
    have hrl : riskLimitsOkB st cfg = false := by
      rw [riskLimitsOkB, decide_eq_false (not_lt.mpr h1)]
      simp
    have hpt : pauseTriggeredB st cfg = false := by
      rw [pauseTriggeredB, decide_eq_true h2, decide_eq_true h3]
      simp
    exact ⟨onLiquidation_reject_only st cfg feed liq now slippage tradeId isLive fill
        hp ho hs hc hrl hpt,
      by simp [gateCriteria, hrl]⟩
  · intro h
    have hkey : decide (st.consecutiveLosses < cfg.maxConsecutiveLosses) = false ∨
        decide (|min 0 st.todayPnl| / st.equity < cfg.dailyMaxLossPct) = false := by
      rcases h with h | h
      · exact Or.inl (decide_eq_false (not_lt.mpr h))
      · exact Or.inr (decide_eq_false (not_lt.mpr h))
    have hrl : riskLimitsOkB st cfg = false := by
      rcases hkey with hk | hk <;> simp [riskLimitsOkB, hk]
    have hpt : pauseTriggeredB st cfg = true := by
      rcases hkey with hk | hk <;> simp [pauseTriggeredB, hk]
    exact ⟨onLiquidation_reject_pause st cfg feed liq now slippage tradeId isLive fill
        hp ho hs hc hrl hpt,
      by simp [gateCriteria, hrl]⟩

/-- C3 witness: with the trade count at the daily maximum and the loss
counters clean, the sample candidate is rejected without a pause. -/
theorem risk_governor_reject_and_pause_witness :
    onLiquidation stDayOld cfgEx feedEx liqEx 0 (1 / 50) 1 false none =
      ⟨stDayOld, some (gateCriteria stDayOld cfgEx feedEx liqEx), none⟩ ∧
    (gateCriteria stDayOld cfgEx feedEx liqEx).passed = false :=
  (risk_governor_reject_and_pause stDayOld cfgEx feedEx liqEx 0 (1 / 50) 1 false none
      rfl rfl (by decide) (by decide)).1
    (by decide) (by decide) (by norm_num [stDayOld, stEx, cfgEx])

/-- C4: with an open position and an available price, the monitor evaluates
TP, SL, TIME_STOP in that order and the first match wins, with pnl measured
as `(current − entry)/entry` for LONG and its negation for SHORT; when none
match, the tick leaves the state untouched. -/
theorem monitor_exit_order (st : StratState) (cfg : Config) (feed : FeedView)
    (now : ℤ) (isLive : Bool) (positions : List PositionInfo) (orderOk : Bool)
    (t : OpenTrade) (p : ℚ)
    (ht : st.openTrade = some t) (hpr : feed.price t.symbol = some p)
    (hp0 : p ≠ 0) :
    (monitorTick st cfg feed now = some ExitReason.TP ↔
      pnlPctSpec t.side t.entryPrice p ≥ cfg.tpPct) ∧
    (monitorTick st cfg feed now = some ExitReason.SL ↔
      (¬ pnlPctSpec t.side t.entryPrice p ≥ cfg.tpPct ∧
        pnlPctSpec t.side t.entryPrice p ≤ -cfg.slPct)) ∧
    (monitorTick st cfg feed now = some ExitReason.TIME_STOP ↔
      (¬ pnlPctSpec t.side t.entryPrice p ≥ cfg.tpPct ∧
        ¬ pnlPctSpec t.side t.entryPrice p ≤ -cfg.slPct ∧
        ((now : ℚ) - (t.entryTime : ℚ)) / 1000 ≥ cfg.timeStopSeconds)) ∧
    (monitorTick st cfg feed now = none ↔
      (¬ pnlPctSpec t.side t.entryPrice p ≥ cfg.tpPct ∧
        ¬ pnlPctSpec t.side t.entryPrice p ≤ -cfg.slPct ∧
        ¬ ((now : ℚ) - (t.entryTime : ℚ)) / 1000 ≥ cfg.timeStopSeconds)) ∧
    (monitorTick st cfg feed now = none →
      step cfg isLive st (Input.tick feed now positions orderOk) = (st, none)) := by
  have hpnl : (if t.side = PosSide.LONG then (p - t.entryPrice) / t.entryPrice
      else (t.entryPrice - p) / t.entryPrice) = pnlPctSpec t.side t.entryPrice p := by
    cases t.side <;> simp [pnlPctSpec] <;> ring
  by_cases h1 : pnlPctSpec t.side t.entryPrice p ≥ cfg.tpPct
  · simp [monitorTick, ht, hpr, hp0, hpnl, h1, step]
  · by_cases h2 : pnlPctSpec t.side t.entryPrice p ≤ -cfg.slPct
    · simp [monitorTick, ht, hpr, hp0, hpnl, h1, h2, step]
    · by_cases h3 : ((now : ℚ) - (t.entryTime : ℚ)) / 1000 ≥ cfg.timeStopSeconds
      · simp [monitorTick, ht, hpr, hp0, hpnl, h1, h2, h3, step]
      · simp [monitorTick, ht, hpr, hp0, hpnl, h1, h2, h3, step]

/-- C4 witness: a LONG from 100 with the price at 100.5 (pnl 0.5 %) exits
with reason TP. -/
theorem monitor_exit_order_witness :
    monitorTick stWithTrade cfgEx feedTP 1000 = some ExitReason.TP :=
  ((monitor_exit_order stWithTrade cfgEx feedTP 1000 false [] true _ (201 / 2)
      rfl rfl (by norm_num)).1).mpr
    (by norm_num [pnlPctSpec, cfgEx])

/-- C5 (code bug): in paper mode the quantity used to close a trade is
recomputed from the slippage-adjusted entry fill price instead of reusing the
quantity sized at entry.  Entering LONG at reference price 100 with 0.02 %
slippage records quantity 70/9 ≈ 7.7778, but the exit computes
350000/45009 ≈ 7.7762 — strictly smaller, contradicting the once-at-entry
sizing rule (and the code's own comment at the recomputation site). -/
theorem exit_quantity_recomputed :
    (enterTrade stEx cfgEx feedEx Sym.BTCUSDT PosSide.LONG 0 (1 / 50) 1 false
        none).2.map TradeRecordOpen.quantity = some (70 / 9) ∧
    (exitTrade (enterTrade stEx cfgEx feedEx Sym.BTCUSDT PosSide.LONG 0 (1 / 50) 1
          false none).1 cfgEx feedEx 60000 false [] true
        ExitReason.TIME_STOP).2.map TradeClose.quantity = some (350000 / 45009) ∧
    (350000 / 45009 : ℚ) < 70 / 9 := by
  refine ⟨?_, ?_, by norm_num⟩
  · norm_num [enterTrade, stEx, cfgEx, feedEx]
  · norm_num [enterTrade, exitTrade, stEx, cfgEx, feedEx]

/-- C6 (code bug): the daily risk counters are never reset.  With the trade
count left at the daily maximum from an earlier UTC day, every later
liquidation — at any processing time whatsoever, including times in a later
UTC day — still sees the stale counter: the signal factors all pass on this
feed, yet the candidate is rejected (no entry) and any logged event has
`passed = false`, and the counter remains 10.  No rollover logic exists in
`onLiquidation` or anywhere else in the strategy. -/
theorem daily_counters_never_reset :
    signalQualityB cfgEx feedEx liqNextDay = true ∧
    ∀ (now : ℤ) (slippage : ℚ) (tradeId : ℕ) (isLive : Bool) (fill : Option Fill),
      (onLiquidation stDayOld cfgEx feedEx liqNextDay now slippage tradeId isLive
          fill).state.todayTradeCount = 10 ∧
      (onLiquidation stDayOld cfgEx feedEx liqNextDay now slippage tradeId isLive
          fill).entry = none ∧
      ((onLiquidation stDayOld cfgEx feedEx liqNextDay now slippage tradeId isLive
            fill).event = none ∨
        (onLiquidation stDayOld cfgEx feedEx liqNextDay now slippage tradeId isLive
            fill).event.map MarketEvent.passed = some false) := by
  constructor
  · simp only [signalQualityB, liqSizeOkB, volumeOkB, spreadOkB, momentumOkB,
      exhaustionOkB, volumeMultVal, Bool.and_eq_true, decide_eq_true_eq]
    norm_num [mlookup, jsOrQ, cfgEx, feedEx, liqNextDay, liqEx]
    rw [abs_of_nonneg (by norm_num : (0 : ℚ) ≤ 1 / 10)]
    norm_num
  · intro now slippage tradeId isLive fill
    have hrl : riskLimitsOkB stDayOld cfgEx = false := by
      simp [riskLimitsOkB, stDayOld, stEx, cfgEx]
    by_cases hc : now < (mlookup stDayOld.cooldowns liqNextDay.symbol).getD 0
    · rw [onLiquidation_cooldown_drop stDayOld cfgEx feedEx liqNextDay now slippage
        tradeId isLive fill hc]
      exact ⟨rfl, rfl, Or.inl rfl⟩
    · cases hpt : pauseTriggeredB stDayOld cfgEx
      · rw [onLiquidation_reject_only stDayOld cfgEx feedEx liqNextDay now slippage
          tradeId isLive fill rfl rfl (by decide) hc hrl hpt]
        exact ⟨rfl, rfl, Or.inr (by simp [gateCriteria, hrl])⟩
      · rw [onLiquidation_reject_pause stDayOld cfgEx feedEx liqNextDay now slippage
          tradeId isLive fill rfl rfl (by decide) hc hrl hpt]
        exact ⟨rfl, rfl, Or.inr (by simp [gateCriteria, hrl])⟩

/-- Lookup skips a cons whose key differs. -/
lemma mlookup_cons_ne {α : Type} (m : List (Sym × α)) (k k2 : Sym) (v : α)
    (h : k ≠ k2) : mlookup ((k2, v) :: m) k = mlookup m k := by
  simp [mlookup, h]

/-- `enterTrade` either leaves the cooldown map untouched (failed entry) or
conses the new cooldown entry. -/
lemma enterTrade_cooldowns_cases (st : StratState) (cfg : Config)
    (feed : FeedView) (symbol : Sym) (side : PosSide) (now : ℤ) (slippage : ℚ)
    (tradeId : ℕ) (isLive : Bool) (fill : Option Fill) :
    (enterTrade st cfg feed symbol side now slippage tradeId isLive fill).1.cooldowns
      = st.cooldowns ∨
    (enterTrade st cfg feed symbol side now slippage tradeId isLive fill).1.cooldowns
      = (symbol, now + cfg.symbolCooldownSeconds * 1000) :: st.cooldowns := by
  cases hpr : feed.price symbol with
  | none => exact Or.inl (by simp [enterTrade, hpr])
  | some p =>
    by_cases hz : p = 0
    · exact Or.inl (by simp [enterTrade, hpr, hz])
    · cases hl : isLive
      · exact Or.inr (by simp [enterTrade, hpr, hz, hl])
      · cases hf : fill with
        | none => exact Or.inl (by simp [enterTrade, hpr, hz, hl, hf])
        | some f => exact Or.inr (by simp [enterTrade, hpr, hz, hl, hf])

/-- Every `onLiquidation` call lands in one of four shapes: a guard-level
no-op, or — with the cooldown check passed — a plain rejection, a rejection
with pause, or an entry. -/
lemma onLiquidation_shape (st : StratState) (cfg : Config) (feed : FeedView)
    (liq : LiquidationSignal) (now : ℤ) (slippage : ℚ) (tradeId : ℕ)
    (isLive : Bool) (fill : Option Fill) :
    onLiquidation st cfg feed liq now slippage tradeId isLive fill =
      ⟨st, none, none⟩ ∨
    (¬ now < (mlookup st.cooldowns liq.symbol).getD 0 ∧
      (onLiquidation st cfg feed liq now slippage tradeId isLive fill =
          ⟨st, some (gateCriteria st cfg feed liq), none⟩ ∨
        onLiquidation st cfg feed liq now slippage tradeId isLive fill =
          ⟨{ st with botStatus := BotStatus.PAUSED_RISK_LIMIT, isPaused := true },
            some (gateCriteria st cfg feed liq), none⟩ ∨
        onLiquidation st cfg feed liq now slippage tradeId isLive fill =
          ⟨(enterTrade st cfg feed liq.symbol
              (if liq.side = LiqSide.BUY then PosSide.SHORT else PosSide.LONG)
              now slippage tradeId isLive fill).1,
            some (gateCriteria st cfg feed liq),
            (enterTrade st cfg feed liq.symbol
              (if liq.side = LiqSide.BUY then PosSide.SHORT else PosSide.LONG)
              now slippage tradeId isLive fill).2⟩)) := by
  by_cases hb : st.isPaused = true
  · exact Or.inl (by unfold onLiquidation; rw [if_pos hb])
  have hp : st.isPaused = false := by revert hb; cases st.isPaused <;> simp
  by_cases ho2 : st.openTrade.isSome = true
  · exact Or.inl (by unfold onLiquidation; rw [if_neg hb, if_pos ho2])
  have ho : st.openTrade = none := by revert ho2; cases st.openTrade <;> simp
  by_cases hs : liq.symbol ∈ cfg.symbols
  · by_cases hc : now < (mlookup st.cooldowns liq.symbol).getD 0
    · exact Or.inl
        (onLiquidation_cooldown_drop st cfg feed liq now slippage tradeId isLive fill hc)
    · refine Or.inr ⟨hc, ?_⟩
      cases hrl : riskLimitsOkB st cfg
      · cases hpt : pauseTriggeredB st cfg
        · exact Or.inl (onLiquidation_reject_only st cfg feed liq now slippage
            tradeId isLive fill hp ho hs hc hrl hpt)
        · exact Or.inr (Or.inl (onLiquidation_reject_pause st cfg feed liq now
            slippage tradeId isLive fill hp ho hs hc hrl hpt))
      · cases hsq : signalQualityB cfg feed liq
        · refine Or.inl ?_
          unfold onLiquidation
          rw [if_neg (by simp [hp]), if_neg (by simp [ho]),
            if_neg (not_not_intro hs), if_neg hc]
          simp [hrl, hsq]
        · refine Or.inr (Or.inr ?_)
          unfold onLiquidation
          rw [if_neg (by simp [hp]), if_neg (by simp [ho]),
            if_neg (not_not_intro hs), if_neg hc]
          simp [hrl, hsq]
  · exact Or.inl (by unfold onLiquidation; rw [if_neg hb, if_neg ho2, if_pos hs])

/-- A market event can only come out of a liquidation input whose cooldown
check passed, and it carries that liquidation's symbol. -/
lemma step_event_source (cfg : Config) (isLive : Bool) (st : StratState)
    (inp : Input) (ev : MarketEvent) (h : (step cfg isLive st inp).2 = some ev) :
    ∃ feed l now slippage tradeId fill,
      inp = Input.liqEv feed l now slippage tradeId fill ∧
      ev.symbol = l.symbol ∧
      ¬ now < (mlookup st.cooldowns l.symbol).getD 0 := by
  cases inp with
  | liqEv feed l now slippage tradeId fill =>
    simp only [step] at h
    rcases onLiquidation_shape st cfg feed l now slippage tradeId isLive fill with
      h1 | ⟨hnc, h2⟩
    · rw [h1] at h; simp at h
    · refine ⟨feed, l, now, slippage, tradeId, fill, rfl, ?_, hnc⟩
      rcases h2 with h2 | h2 | h2 <;> rw [h2] at h <;>
        simp only [Option.some.injEq] at h <;>
        exact h ▸ rfl
  | tick feed now positions orderOk =>
    exact absurd h (by cases hmt : monitorTick st cfg feed now <;> simp [step, hmt])
  | pauseCmd => exact absurd h (by simp [step])
  | resumeCmd => exact absurd h (by simp [step])
  | flattenCmd feed now positions orderOk => exact absurd h (by simp [step])

/-- While every liquidation in sight happens before the bound `c`, a cooldown
entry standing at `c` survives any step unchanged. -/
lemma step_preserves_cooldown (cfg : Config) (isLive : Bool) (S : Sym) (c : ℤ)
    (st : StratState) (inp : Input) (hin : liqTimeLt c inp)
    (h : (mlookup st.cooldowns S).getD 0 = c) :
    (mlookup ((step cfg isLive st inp).1).cooldowns S).getD 0 = c := by
  cases inp with
  | liqEv feed l now slippage tradeId fill =>
    simp only [step]
    rcases onLiquidation_shape st cfg feed l now slippage tradeId isLive fill with
      h1 | ⟨hnc, h2⟩
    · rw [h1]; exact h
    · rcases h2 with h2 | h2 | h2 <;> rw [h2]
      · exact h
      · exact h
      · rcases enterTrade_cooldowns_cases st cfg feed l.symbol
          (if l.side = LiqSide.BUY then PosSide.SHORT else PosSide.LONG)
          now slippage tradeId isLive fill with he | he
        · dsimp only
          rw [he]
          exact h
        · dsimp only
          rw [he]
          by_cases hS : S = l.symbol
          · subst hS
            rw [h] at hnc
            exact absurd (by simpa [liqTimeLt] using hin) hnc
          · rw [mlookup_cons_ne st.cooldowns S l.symbol _ hS]
            exact h
  | tick feed now positions orderOk =>
    cases hmt : monitorTick st cfg feed now with
    | none => simpa [step, hmt] using h
    | some r =>
      simp only [step, hmt]
      rw [exitTrade_cooldowns]
      exact h
  | pauseCmd => simpa [step] using h
  | resumeCmd => simpa [step] using h
  | flattenCmd feed now positions orderOk =>
    simp only [step]
    split
    · rw [exitTrade_cooldowns]; exact h
    · exact h

/-- While every liquidation in the trace happens before the cooldown bound
`c` standing for symbol `S`, the run emits no market event for `S` at all. -/
lemma run_no_event_in_cooldown (cfg : Config) (isLive : Bool) (S : Sym) (c : ℤ) :
    ∀ (inputs : List Input) (st : StratState),
      (mlookup st.cooldowns S).getD 0 = c →
      (∀ inp ∈ inputs, liqTimeLt c inp) →
      ∀ ev ∈ (run cfg isLive st inputs).2, ev.symbol ≠ S := by
  intro inputs
  induction inputs with
  | nil => intro st h1 h2 ev hev; simp [run] at hev
  | cons inp rest ih =>
    intro st h1 h2 ev hev
    simp only [run] at hev
    rcases List.mem_append.mp hev with hl | hr
    · have hsome : (step cfg isLive st inp).2 = some ev := by
        cases hst : (step cfg isLive st inp).2 with
        | none => rw [hst] at hl; simp at hl
        | some a =>
          rw [hst] at hl
          simp at hl
          rw [hl]
      obtain ⟨feed, l, now, slippage, tradeId, fill, hinp, hsym, hnc⟩ :=
        step_event_source cfg isLive st inp ev hsome
      intro hES
      have hls : l.symbol = S := hsym.symm.trans hES
      have hlt : now < c := by
        have hmem := h2 inp (List.mem_cons_self inp rest)
        rw [hinp] at hmem
        simpa [liqTimeLt] using hmem
      rw [hls, h1] at hnc
      exact hnc hlt
    · exact ih ((step cfg isLive st inp).1)
        (step_preserves_cooldown cfg isLive S c st inp
          (h2 inp (List.mem_cons_self inp rest)) h1)
        (fun i hi => h2 i (List.mem_cons_of_mem inp hi)) ev hr

/-- C8: a liquidation on a symbol still in cooldown is dropped silently —
no state change, no market event, no entry; a successful entry stamps the
symbol's cooldown to `now + symbol_cooldown_seconds · 1000`; and along any
input trace whose liquidations all happen before the standing cooldown bound
of a symbol, the run emits no market event for that symbol at all (hence
none with `passed = true`). -/
theorem cooldown_suppression (cfg : Config) (isLive : Bool) :
    (∀ (st : StratState) (feed : FeedView) (liq : LiquidationSignal) (now : ℤ)
        (slippage : ℚ) (tradeId : ℕ) (fill : Option Fill),
      now < (mlookup st.cooldowns liq.symbol).getD 0 →
      onLiquidation st cfg feed liq now slippage tradeId isLive fill =
        ⟨st, none, none⟩) ∧
    (∀ (st : StratState) (feed : FeedView) (liq : LiquidationSignal) (now : ℤ)
        (slippage : ℚ) (tradeId : ℕ) (fill : Option Fill) (tr : TradeRecordOpen),
      (onLiquidation st cfg feed liq now slippage tradeId isLive fill).entry =
        some tr →
      mlookup (onLiquidation st cfg feed liq now slippage tradeId isLive
          fill).state.cooldowns liq.symbol =
        some (now + cfg.symbolCooldownSeconds * 1000)) ∧
    (∀ (S : Sym) (c : ℤ) (st : StratState) (inputs : List Input),
      (mlookup st.cooldowns S).getD 0 = c →
      (∀ inp ∈ inputs, liqTimeLt c inp) →
      ∀ ev ∈ (run cfg isLive st inputs).2, ev.symbol ≠ S) := by
  refine ⟨?_, ?_, fun S c st inputs h1 h2 =>
    run_no_event_in_cooldown cfg isLive S c inputs st h1 h2⟩
  · intro st feed liq now slippage tradeId fill h
    exact onLiquidation_cooldown_drop st cfg feed liq now slippage tradeId isLive fill h
  · intro st feed liq now slippage tradeId fill tr hEntry
    rcases onLiquidation_shape st cfg feed liq now slippage tradeId isLive fill with
      h1 | ⟨hnc, h2⟩
    · rw [h1] at hEntry; simp at hEntry
    · rcases h2 with h2 | h2 | h2 <;> rw [h2] at hEntry ⊢
      · simp at hEntry
      · simp at hEntry
      · dsimp only at hEntry ⊢
        rw [enterTrade_cooldowns_of_entry st cfg feed liq.symbol
          (if liq.side = LiqSide.BUY then PosSide.SHORT else PosSide.LONG)
          now slippage tradeId isLive fill tr hEntry]
        simp [mlookup]

/-- C8 witness: with the BTCUSDT cooldown standing until 300,000 ms, a
liquidation processed at 1,000 ms is dropped with no state change and no
event. -/
theorem cooldown_suppression_witness :
    onLiquidation stCooldown cfgEx feedEx liqEx 1000 (1 / 50) 1 false none =
      ⟨stCooldown, none, none⟩ :=
  (cooldown_suppression cfgEx false).1 stCooldown feedEx liqEx 1000 (1 / 50) 1 none
    (by decide)

end TradeEngine
